import Mathlib

/-!
Verification of the ContactHub contact-management service
(`src/main.py`, `src/models.py`, `src/schemas.py`).

The development shallowly embeds the code:

* Python `datetime.date` values become `PyDate` (year/month/day as `Nat`);
  Python raises `ValueError` on invalid date construction and
  `OverflowError` past `date.max = 9999-12-31`, so the date operations
  that can raise return `Option PyDate` with `none` for the exception.
* The birthday helper `_is_birthday_within_days` becomes
  `isBirthdayWithinDays : Option PyDate → PyDate → Nat → Option Bool`
  (`none` models an uncaught exception escaping the function).
* The database is a list of rows in persisted (insertion) order plus the
  autoincrement counter; the wall clock is passed explicitly as a `Nat`
  instant to the mutating handlers.  Route handlers return
  `Except HTTPException result` (paired with the post-state for mutating
  routes).  The interpolated parts of Python `detail` f-strings are
  abstracted to constant strings.
-/

/-- A Python `datetime.date` value: year, month, day. -/
structure PyDate where
  year : Nat
  month : Nat
  day : Nat
deriving DecidableEq, Repr

/-- Gregorian leap-year rule, as implemented by Python `calendar.isleap` /
`datetime`. -/
def isLeapYear (y : Nat) : Bool :=
  y % 4 == 0 && (y % 100 != 0 || y % 400 == 0)

/-- Number of days in a month of a given year (Gregorian calendar, as used
by Python `datetime`). -/
def daysInMonth (y m : Nat) : Nat :=
  if m = 2 then (if isLeapYear y then 29 else 28)
  else if m = 4 ∨ m = 6 ∨ m = 9 ∨ m = 11 then 30
  else 31

/-- Validity of a `PyDate` exactly as checked by the Python `date`
constructor: `MINYEAR = 1 ≤ year ≤ MAXYEAR = 9999`, `1 ≤ month ≤ 12`,
`1 ≤ day ≤ days_in_month(year, month)`. -/
def isValidDate (d : PyDate) : Bool :=
  decide (1 ≤ d.year) && decide (d.year ≤ 9999) &&
  decide (1 ≤ d.month) && decide (d.month ≤ 12) &&
  decide (1 ≤ d.day) && decide (d.day ≤ daysInMonth d.year d.month)

/-- Python `date.replace(year=y)`: rebuilds the date with the new year and
re-validates it; raises `ValueError` (here `none`) when the rebuilt date is
invalid, e.g. Feb 29 moved into a non-leap year, or a year outside
`1..9999`. -/
def pyReplaceYear (d : PyDate) (y : Nat) : Option PyDate :=
  if isValidDate ⟨y, d.month, d.day⟩ then some ⟨y, d.month, d.day⟩ else none

/-- Python `date` strict comparison `<` (lexicographic on
(year, month, day), which is how `date._cmp` compares the fields). -/
def PyDate.lt (a b : PyDate) : Bool :=
  decide (a.year < b.year) ||
  (decide (a.year = b.year) &&
    (decide (a.month < b.month) ||
      (decide (a.month = b.month) && decide (a.day < b.day))))

/-- Python `date` comparison `≤` (lexicographic on (year, month, day)). -/
def PyDate.le (a b : PyDate) : Bool :=
  decide (a.year < b.year) ||
  (decide (a.year = b.year) &&
    (decide (a.month < b.month) ||
      (decide (a.month = b.month) && decide (a.day ≤ b.day))))

/-- Successor day in the Gregorian calendar. -/
def nextDay (d : PyDate) : PyDate :=
  if d.day < daysInMonth d.year d.month then ⟨d.year, d.month, d.day + 1⟩
  else if d.month < 12 then ⟨d.year, d.month + 1, 1⟩
  else ⟨d.year + 1, 1, 1⟩

/-- One-day step with the Python `date.max` bound: stepping past 9999-12-31
raises `OverflowError` (modelled as `none`). -/
def nextDayChecked (d : PyDate) : Option PyDate :=
  if d = (⟨9999, 12, 31⟩ : PyDate) then none else some (nextDay d)

/-- Python `d + timedelta(days=n)` for `n ≥ 0`: ordinal arithmetic, which
on valid dates is `n` successor-day steps, raising `OverflowError`
(`none`) when the result would pass `date.max`. -/
def addDays (d : PyDate) : Nat → Option PyDate
  | 0 => some d
  | n + 1 =>
    match addDays d n with
    | none => none
    | some e => nextDayChecked e

/-- Embedding of `_is_birthday_within_days(birthday, current_date, days)` from
`src/main.py` lines 24-44, with each date operation that can raise
translated to the `Option` layer (`none` = the Python exception
propagating out of the function):

* `birthday is None` → `False`;
* `end_date = current_date + timedelta(days=days)`;
* `birthday_this_year = birthday.replace(year=current_date.year)`;
* if it is before `current_date`, re-replace with `current_date.year + 1`;
* result: `current_date <= birthday_this_year <= end_date`. -/
def isBirthdayWithinDays (birthday : Option PyDate) (currentDate : PyDate)
    (days : Nat) : Option Bool :=
  match birthday with
  | none => some false
  | some b =>
    match addDays currentDate days with
    | none => none
    | some endDate =>
      match pyReplaceYear b currentDate.year with
      | none => none
      | some bty =>
        match (if PyDate.lt bty currentDate then
                pyReplaceYear bty (currentDate.year + 1)
               else some bty) with
        | none => none
        | some bty2 => some (PyDate.le currentDate bty2 && PyDate.le bty2 endDate)

/-- The "next occurrence" of birthday `b` relative to reference date `r`,
as constructed inside `_is_birthday_within_days`: the birthday with the
year replaced by the year of `r`, re-replaced with that year + 1 when the
first candidate falls before `r`; `none` when a construction step raises. -/
def nextOccurrence (b r : PyDate) : Option PyDate :=
  match pyReplaceYear b r.year with
  | none => none
  | some c => if PyDate.lt c r then pyReplaceYear c (r.year + 1) else some c

/-! ### SQL `ILIKE` pattern matching

`search_contacts_by_query` filters with
`column.ilike(f"%{query}%")`: case-insensitive SQL `LIKE`, where `%`
matches any sequence, `_` matches any single character, and the default
escape character backslash makes the following character literal. -/

/-- The LIKE escape character (backslash). -/
def backslashChar : Char := Char.ofNat 92

/-- SQL `LIKE` matching of a whole string against a pattern:
`%` matches any (possibly empty) sequence, `_` any single character, a
backslash escapes the next pattern character, anything else matches
itself. -/
def likeMatch : List Char → List Char → Bool
  | [], [] => true
  | [], _ :: _ => false
  | p :: ps, [] => p == '%' && likeMatch ps []
  | p :: ps, c :: s =>
    if p == '%' then likeMatch ps (c :: s) || likeMatch (p :: ps) s
    else if p == '_' then likeMatch ps s
    else if p == backslashChar then
      decide (ps.head? = some c) && likeMatch ps.tail s
    else p == c && likeMatch ps s
termination_by p s => p.length + s.length
decreasing_by
  all_goals simp [List.length_cons, List.length_tail] <;> omega

/-- Characters of a string, case-folded (SQL `ILIKE` compares both sides
case-insensitively). -/
def lowerStr (s : String) : List Char := s.data.map Char.toLower

/-- Embedding of `column.ilike(pattern)`: case-insensitive LIKE. -/
def ilike (s pattern : String) : Bool :=
  likeMatch (lowerStr pattern) (lowerStr s)

/-- Does `s` start with `needle` (character-exact)? -/
def startsWithCh : List Char → List Char → Bool
  | [], _ => true
  | _ :: _, [] => false
  | a :: as, b :: bs => a == b && startsWithCh as bs

/-- Does `s` contain `needle` as a contiguous substring? -/
def containsSub (needle : List Char) : List Char → Bool
  | [] => needle.isEmpty
  | b :: t => startsWithCh needle (b :: t) || containsSub needle t

/-- Modelled from the spec: "case-insensitive substring match" — the
query occurs contiguously, case-folded, inside the field. -/
def specContainsCI (needle haystack : String) : Bool :=
  containsSub (lowerStr needle) (lowerStr haystack)

/-- No LIKE metacharacter (`%`, `_`, backslash) among the characters. -/
def noMeta (cs : List Char) : Prop :=
  ∀ ch ∈ cs, ch ≠ '%' ∧ ch ≠ '_' ∧ ch ≠ backslashChar

/-! ### Data model and route handlers

`models.Contact` (one table, autoincrement integer primary key, unique
email, UTC timestamps) and the FastAPI handlers of `src/main.py`.
Timestamps are abstract clock instants (`Nat`); the current instant is
passed explicitly to the mutating handlers, standing for
`datetime.now(timezone.utc)` / the server clock. -/

/-- A persisted `contacts` row (`models.Contact`). -/
structure ContactRec where
  id : Nat
  first_name : String
  last_name : String
  email : String
  phone : String
  birthday : Option PyDate
  additional_data : Option String
  created_at : Nat
  updated_at : Nat
deriving DecidableEq, Repr

/-- Embedding of `schemas.ContactBase`: the create-input shape (all business fields
required, `additional_data` optional). -/
structure ContactBase where
  first_name : String
  last_name : String
  email : String
  phone : String
  birthday : PyDate
  additional_data : Option String
deriving DecidableEq, Repr

/-- Embedding of `schemas.ContactUpdate`: the update-input shape.  Every
field is `Optional` with default `None` in the schema, and pydantic
distinguishes an omitted field from one supplied as explicit `null`
(`model_dump(exclude_unset=True)` keeps the latter).  Accordingly each
field here is `none` when unset, `some none` when supplied as `null`,
and `some (some v)` when supplied with a value. -/
structure ContactUpdate where
  first_name : Option (Option String) := none
  last_name : Option (Option String) := none
  email : Option (Option String) := none
  phone : Option (Option String) := none
  birthday : Option (Option PyDate) := none
  additional_data : Option (Option String) := none
deriving DecidableEq, Repr

/-- The persisted store: rows in persisted (insertion) order, plus the
autoincrement counter for the next `id`. -/
structure DB where
  rows : List ContactRec
  nextId : Nat
deriving DecidableEq, Repr

/-- Embedding of `fastapi.HTTPException`: a status code and a detail message. -/
structure HTTPException where
  status_code : Nat
  detail : String
deriving DecidableEq, Repr

/-- Detail of the 400 duplicate-email error (interpolated email
abstracted away). -/
def dupEmailDetail : String := "Contact with email already exists"

/-- Detail of the 404 unknown-id error (interpolated id abstracted
away). -/
def notFoundDetail : String := "Contact with ID not found"

/-- Detail of the 404 empty-search error (interpolated query abstracted
away). -/
def noMatchDetail : String := "No contacts found matching query"

/-- Detail of a 422 validation rejection produced by the framework
validation boundary (`Query(ge=..., le=...)`, `min_length=...`). -/
def validationDetail : String := "validation error"

/-- Detail of the 500 response produced when the database rejects a
commit violating a `contacts` constraint — the `unique=True` index on
`Contact.email` or a `nullable=False` column set to `None` — as an
uncaught `IntegrityError`. -/
def integrityDetail : String := "IntegrityError"

/-- Embedding of `create_contact` (`src/main.py` lines 55-75): look up an existing row
with the same email (`.filter(Contact.email == contact.email).first()`);
if found raise 400, otherwise insert a row built from the input with the
server-generated `id` and `created_at = updated_at = now`, and return
it.  The pre-check makes the insert satisfy the email unique constraint
whenever the store does. -/
def create_contact (contact : ContactBase) (now : Nat) (db : DB) :
    Except HTTPException ContactRec × DB :=
  match db.rows.find? (fun c => c.email == contact.email) with
  | some _ => (Except.error ⟨400, dupEmailDetail⟩, db)
  | none =>
    let newContact : ContactRec :=
      { id := db.nextId
        first_name := contact.first_name
        last_name := contact.last_name
        email := contact.email
        phone := contact.phone
        birthday := some contact.birthday
        additional_data := contact.additional_data
        created_at := now
        updated_at := now }
    (Except.ok newContact, ⟨db.rows ++ [newContact], db.nextId + 1⟩)

/-- Embedding of `get_contacts_list` (`src/main.py` lines 85-101):
`Query(0, ge=0)` and `Query(100, ge=1, le=500)` make the validation
boundary reject out-of-range paging with 422 before the handler runs;
otherwise `.offset(skip).limit(limit).all()` over the persisted order. -/
def get_contacts_list (skip limit : Int) (db : DB) :
    Except HTTPException (List ContactRec) :=
  if skip < 0 then Except.error ⟨422, validationDetail⟩
  else if limit < 1 then Except.error ⟨422, validationDetail⟩
  else if 500 < limit then Except.error ⟨422, validationDetail⟩
  else Except.ok ((db.rows.drop skip.toNat).take limit.toNat)

/-- Embedding of `search_contacts_by_query` (`src/main.py` lines 111-149):
`Query(..., min_length=3)` rejects shorter queries with 422; otherwise
filter rows where first name, last name or email matches
`ilike(f"%{query}%")`; raise 404 when no row matches. -/
def search_contacts_by_query (query : String) (db : DB) :
    Except HTTPException (List ContactRec) :=
  if query.length < 3 then Except.error ⟨422, validationDetail⟩
  else
    let pat := "%" ++ query ++ "%"
    let matching := db.rows.filter (fun c =>
      ilike c.first_name pat || ilike c.last_name pat || ilike c.email pat)
    if matching.isEmpty then Except.error ⟨404, noMatchDetail⟩
    else Except.ok matching

/-- Embedding of `get_contact_by_id` (`src/main.py` lines 189-204). -/
def get_contact_by_id (contact_id : Nat) (db : DB) :
    Except HTTPException ContactRec :=
  match db.rows.find? (fun c => c.id == contact_id) with
  | none => Except.error ⟨404, notFoundDetail⟩
  | some c => Except.ok c

/-- The in-memory `Contact` instance as the `setattr` loop leaves it:
every column attribute as a Python value, `none` standing for `None`
(a `nullable=False` column can transiently hold `None` in the object;
the database rejects it at flush time). -/
structure PendingRow where
  first_name : Option String
  last_name : Option String
  email : Option String
  phone : Option String
  birthday : Option PyDate
  additional_data : Option String
deriving DecidableEq, Repr

/-- The attribute view of a persisted row (its committed column
values). -/
def toPending (c : ContactRec) : PendingRow :=
  ⟨some c.first_name, some c.last_name, some c.email, some c.phone,
   c.birthday, c.additional_data⟩

/-- The `setattr` loop of `update_contact_by_id` over
`contact.model_dump(exclude_unset=True)`: each supplied field — a value
or an explicit `null` — overwrites the attribute; unset fields keep the
stored value. -/
def pendingFields (c : ContactRec) (u : ContactUpdate) : PendingRow :=
  { first_name := u.first_name.getD (some c.first_name)
    last_name := u.last_name.getD (some c.last_name)
    email := u.email.getD (some c.email)
    phone := u.phone.getD (some c.phone)
    birthday := u.birthday.getD c.birthday
    additional_data := u.additional_data.getD c.additional_data }

/-- The `nullable=False` columns of `models.Contact` (first and last
name, email, phone, birthday — `additional_data` alone is nullable): a
pending `None` in one of them makes the emitted UPDATE violate NOT NULL
and raises `IntegrityError`. -/
def violatesNotNull (p : PendingRow) : Bool :=
  p.first_name.isNone || p.last_name.isNone || p.email.isNone ||
  p.phone.isNone || p.birthday.isNone

/-- The row a net-change UPDATE commits: the pending attribute values
with `updated_at` refreshed by the `onupdate` hook of `models.Contact`
to the commit instant.  The `getD` fallbacks on the NOT NULL string
columns are unreachable after the `violatesNotNull` check. -/
def commitRow (c : ContactRec) (p : PendingRow) (now : Nat) : ContactRec :=
  { id := c.id
    first_name := p.first_name.getD c.first_name
    last_name := p.last_name.getD c.last_name
    email := p.email.getD c.email
    phone := p.phone.getD c.phone
    birthday := p.birthday
    additional_data := p.additional_data
    created_at := c.created_at
    updated_at := now }

/-- Embedding of `update_contact_by_id` (`src/main.py` lines 214-241):
find the row by id (404 when absent), run the `setattr` loop over the
supplied fields, commit.  At commit, SQLAlchemy emits an UPDATE only
when some attribute differs (by equality) from its committed value —
for an empty or no-net-change input no UPDATE is emitted, the `onupdate`
hook never fires and the row keeps its stored `updated_at`; the model
renders this by committing the unchanged `existing` row.  An emitted
UPDATE is checked by the database against the `contacts` constraints:
a `nullable=False` column set to `None`, or a new email equal to the
email of a different row (`unique=True`, `models.py` line 21), raises an
uncaught `IntegrityError` (surfaced as a 500) and persists nothing; the
handler itself never re-checks email uniqueness.  The store afterwards
holds the committed row image at the primary key (on a store satisfying
the schema constraints — unique ids, unique emails, non-null NOT NULL
columns — this coincides with the program, whose no-UPDATE flush leaves
the store untouched and triggers no constraint). -/
def update_contact_by_id (contact_id : Nat) (contact : ContactUpdate)
    (now : Nat) (db : DB) : Except HTTPException ContactRec × DB :=
  match db.rows.find? (fun c => c.id == contact_id) with
  | none => (Except.error ⟨404, notFoundDetail⟩, db)
  | some existing =>
    let pending := pendingFields existing contact
    if violatesNotNull pending then (Except.error ⟨500, integrityDetail⟩, db)
    else if db.rows.any (fun c =>
        c.id != contact_id && decide (some c.email = pending.email)) then
      (Except.error ⟨500, integrityDetail⟩, db)
    else
      let updated := if pending = toPending existing then existing
                     else commitRow existing pending now
      (Except.ok updated,
       ⟨db.rows.map (fun c => if c.id == contact_id then updated else c),
        db.nextId⟩)

/-- Embedding of `delete_contact_by_id` (`src/main.py` lines 251-269): find the row by
id (404 when absent), delete it by primary key, return no content. -/
def delete_contact_by_id (contact_id : Nat) (db : DB) :
    Except HTTPException Unit × DB :=
  match db.rows.find? (fun c => c.id == contact_id) with
  | none => (Except.error ⟨404, notFoundDetail⟩, db)
  | some _ =>
    (Except.ok (), ⟨db.rows.filter (fun c => c.id != contact_id), db.nextId⟩)

/-! ### Concrete sample data for closed instances -/

/-- A sample valid birthday. -/
def sampleDate : PyDate := ⟨1990, 4, 12⟩

/-- A sample create input. -/
def sampleInput : ContactBase :=
  { first_name := "Alice", last_name := "Smith",
    email := "alice@example.com", phone := "0123456789",
    birthday := sampleDate, additional_data := none }

/-- A sample persisted row (as created from `sampleInput`). -/
def sampleRow : ContactRec :=
  { id := 1, first_name := "Alice", last_name := "Smith",
    email := "alice@example.com", phone := "0123456789",
    birthday := some sampleDate, additional_data := none,
    created_at := 0, updated_at := 0 }

/-- A second sample persisted row with a distinct email. -/
def sampleRow2 : ContactRec :=
  { id := 2, first_name := "Bobby", last_name := "Jones",
    email := "bob@example.com", phone := "0123456789",
    birthday := some ⟨1991, 2, 2⟩, additional_data := none,
    created_at := 0, updated_at := 0 }

/-- A row whose first name matches the LIKE pattern of the query
`a_a` without containing it as a substring. -/
def cexRow : ContactRec :=
  { id := 1, first_name := "aba", last_name := "zzzz",
    email := "q@q.io", phone := "0123456789",
    birthday := some sampleDate, additional_data := none,
    created_at := 0, updated_at := 0 }

/-! ### Ordering and arithmetic lemmas for `PyDate` -/

theorem pyLe_iff (a b : PyDate) :
    PyDate.le a b = true ↔
      (a.year < b.year ∨ (a.year = b.year ∧
        (a.month < b.month ∨ (a.month = b.month ∧ a.day ≤ b.day)))) := by
  simp [PyDate.le]

theorem pyLt_iff (a b : PyDate) :
    PyDate.lt a b = true ↔
      (a.year < b.year ∨ (a.year = b.year ∧
        (a.month < b.month ∨ (a.month = b.month ∧ a.day < b.day)))) := by
  simp [PyDate.lt]

theorem pyLe_refl (a : PyDate) : PyDate.le a a = true := by
  simp [pyLe_iff]

theorem pyLe_trans {a b c : PyDate} (h1 : PyDate.le a b = true)
    (h2 : PyDate.le b c = true) : PyDate.le a c = true := by
  rw [pyLe_iff] at h1 h2 ⊢
  omega

theorem pyLe_of_lt {a b : PyDate} (h : PyDate.lt a b = true) :
    PyDate.le a b = true := by
  rw [pyLt_iff] at h
  rw [pyLe_iff]
  omega

theorem pyLt_nextDay (d : PyDate) : PyDate.lt d (nextDay d) = true := by
  rw [pyLt_iff]
  unfold nextDay
  split
  · simp
  · split <;> simp

theorem nextDayChecked_some {d e : PyDate} (h : nextDayChecked d = some e) :
    e = nextDay d := by
  unfold nextDayChecked at h
  split at h
  · exact absurd h (by simp)
  · exact (Option.some_inj.mp h).symm

theorem addDays_succ_decomp {r e' : PyDate} {n : Nat}
    (h : addDays r (n + 1) = some e') :
    ∃ e, addDays r n = some e ∧ nextDayChecked e = some e' := by
  unfold addDays at h
  cases hn : addDays r n with
  | none => rw [hn] at h; exact absurd h (by simp)
  | some e => exact ⟨e, rfl, by rw [hn] at h; exact h⟩

theorem addDays_mono {r : PyDate} {d d' : Nat} (hdd : d ≤ d') {e e' : PyDate}
    (he : addDays r d = some e) (he' : addDays r d' = some e') :
    PyDate.le e e' = true := by
  induction d' generalizing e' with
  | zero =>
    have hd0 : d = 0 := Nat.le_zero.mp hdd
    subst hd0
    rw [he] at he'
    obtain rfl : e = e' := Option.some_inj.mp he'
    exact pyLe_refl e
  | succ k ih =>
    obtain ⟨ek, hek, hstep⟩ := addDays_succ_decomp he'
    rcases Nat.lt_or_ge d (k + 1) with hlt | hge
    · have hle : PyDate.le e ek = true := ih (Nat.lt_succ_iff.mp hlt) hek
      have hst : PyDate.le ek e' = true := by
        obtain rfl : e' = nextDay ek := nextDayChecked_some hstep
        exact pyLe_of_lt (pyLt_nextDay ek)
      exact pyLe_trans hle hst
    · have hd : d = k + 1 := Nat.le_antisymm hdd hge
      subst hd
      rw [he] at he'
      obtain rfl : e = e' := Option.some_inj.mp he'
      exact pyLe_refl e

theorem pyLe_addDays {r e : PyDate} {w : Nat} (h : addDays r w = some e) :
    PyDate.le r e = true :=
  addDays_mono (Nat.zero_le w) rfl h

/-! ### Month-length facts used for the totality analysis -/

theorem daysInMonth_indep (y yb m : Nat) (hm : m ≠ 2) :
    daysInMonth y m = daysInMonth yb m := by
  simp [daysInMonth, hm]

theorem daysInMonth_feb_ge (y : Nat) : 28 ≤ daysInMonth y 2 := by
  have h : daysInMonth y 2 = if isLeapYear y then 29 else 28 := by
    simp [daysInMonth]
  rw [h]
  split <;> omega

/-- C1: for every birthday `b`, reference date `r` and window `w`, the
predicate returns `True` exactly when the next occurrence of `b` (year
replaced by the year of `r`, bumped to the next year when the candidate falls
before `r`) exists and lies in the inclusive range `[r, r + w days]`; an
absent birthday yields `False`; and a candidate equal to `r` itself
yields `True` (inclusive lower bound). -/
theorem birthday_window_characterization (b r : PyDate) (w : Nat) :
    (isBirthdayWithinDays (some b) r w = some true ↔
      ∃ c e, nextOccurrence b r = some c ∧ addDays r w = some e ∧
        PyDate.le r c = true ∧ PyDate.le c e = true) ∧
    isBirthdayWithinDays none r w = some false ∧
    (∀ e, addDays r w = some e → nextOccurrence b r = some r →
      isBirthdayWithinDays (some b) r w = some true) := by
  have hiff : isBirthdayWithinDays (some b) r w = some true ↔
      ∃ c e, nextOccurrence b r = some c ∧ addDays r w = some e ∧
        PyDate.le r c = true ∧ PyDate.le c e = true := by
    cases haw : addDays r w with
    | none => simp [isBirthdayWithinDays, haw]
    | some e0 =>
      cases hpr : pyReplaceYear b r.year with
      | none => simp [isBirthdayWithinDays, nextOccurrence, haw, hpr]
      | some c0 =>
        by_cases hlt : PyDate.lt c0 r = true
        · cases hpr2 : pyReplaceYear c0 (r.year + 1) with
          | none =>
            simp [isBirthdayWithinDays, nextOccurrence, haw, hpr, hpr2, hlt]
          | some c1 =>
            simp [isBirthdayWithinDays, nextOccurrence, haw, hpr, hpr2, hlt,
              Bool.and_eq_true]
        · simp [isBirthdayWithinDays, nextOccurrence, haw, hpr, hlt,
            Bool.and_eq_true]
  refine ⟨hiff, rfl, ?_⟩
  intro e he hr
  exact hiff.mpr ⟨r, e, hr, he, pyLe_refl r, pyLe_addDays he⟩

/-- Closed instance of `birthday_window_characterization`, discharging its
hypotheses at a concrete input: a birthday whose candidate equals the
reference date is reported as upcoming. -/
theorem birthday_window_characterization_witness :
    isBirthdayWithinDays (some ⟨2000, 3, 10⟩) ⟨2024, 3, 10⟩ 7 = some true :=
  (birthday_window_characterization ⟨2000, 3, 10⟩ ⟨2024, 3, 10⟩ 7).2.2
    ⟨2024, 3, 17⟩ (by decide) (by decide)

/-- C2 (counterexample): the predicate is not total — a Feb 29 birthday
with a non-leap candidate year makes `birthday.replace(year=...)` raise
`ValueError` (modelled `none`), so the call neither returns `True` nor
`False`. -/
theorem birthday_window_feb29_error :
    isBirthdayWithinDays (some ⟨2024, 2, 29⟩) ⟨2025, 1, 1⟩ 7 = none := by
  decide

/-- C2 (amended): away from the undefined cases the predicate is total —
for every valid birthday that is not Feb 29, every reference year in
`1..9998`, and every window whose end date stays within the supported
range, the predicate returns `True` or `False` without error. -/
theorem birthday_window_total_no_feb29 (b r : PyDate) (w : Nat) (e : PyDate)
    (hb : isValidDate b = true) (h29 : ¬(b.month = 2 ∧ b.day = 29))
    (hy1 : 1 ≤ r.year) (hy2 : r.year ≤ 9998) (hw : addDays r w = some e) :
    ∃ v, isBirthdayWithinDays (some b) r w = some v := by
  have hv : 1 ≤ b.year ∧ b.year ≤ 9999 ∧ 1 ≤ b.month ∧ b.month ≤ 12 ∧
      1 ≤ b.day ∧ b.day ≤ daysInMonth b.year b.month := by
    simpa [isValidDate, and_assoc] using hb
  have hday : ∀ y : Nat, b.day ≤ daysInMonth y b.month := by
    intro y
    by_cases hm : b.month = 2
    · have h28 : b.day ≤ 28 := by
        have hle : b.day ≤ daysInMonth b.year 2 := hm ▸ hv.2.2.2.2.2
        have hfeb : daysInMonth b.year 2 ≤ 29 := by
          have hq : daysInMonth b.year 2 = if isLeapYear b.year then 29 else 28 := by
            simp [daysInMonth]
          rw [hq]; split <;> omega
        have hne : b.day ≠ 29 := fun hd => h29 ⟨hm, hd⟩
        omega
      calc b.day ≤ 28 := h28
        _ ≤ daysInMonth y 2 := daysInMonth_feb_ge y
        _ = daysInMonth y b.month := by rw [hm]
    · rw [daysInMonth_indep y b.year b.month hm]
      exact hv.2.2.2.2.2
  have hrep : ∀ y : Nat, 1 ≤ y → y ≤ 9999 →
      pyReplaceYear ⟨y, b.month, b.day⟩ (y + 1) = pyReplaceYear b (y + 1) ∧
      pyReplaceYear b y = some ⟨y, b.month, b.day⟩ := by
    intro y h1 h9
    constructor
    · simp [pyReplaceYear]
    · have : isValidDate ⟨y, b.month, b.day⟩ = true := by
        simp only [isValidDate]
        simp only [Bool.and_eq_true, decide_eq_true_eq]
        exact ⟨⟨⟨⟨⟨h1, h9⟩, hv.2.2.1⟩, hv.2.2.2.1⟩, hv.2.2.2.2.1⟩, hday y⟩
      simp [pyReplaceYear, this]
  have h1 := (hrep r.year hy1 (by omega)).2
  simp only [isBirthdayWithinDays, hw, h1]
  by_cases hlt : PyDate.lt ⟨r.year, b.month, b.day⟩ r = true
  · have h2 := (hrep (r.year) hy1 (by omega)).1
    have h3 := (hrep (r.year + 1) (by omega) (by omega)).2
    rw [h2] at *
    simp [hlt, h3]
  · simp [hlt]

/-- Closed instance of `birthday_window_total_no_feb29` at a concrete
non-Feb-29 birthday. -/
theorem birthday_window_total_no_feb29_witness :
    ∃ v, isBirthdayWithinDays (some ⟨2000, 5, 15⟩) ⟨2024, 1, 1⟩ 7 = some v :=
  birthday_window_total_no_feb29 ⟨2000, 5, 15⟩ ⟨2024, 1, 1⟩ 7 ⟨2024, 1, 8⟩
    (by decide) (by decide) (by decide) (by decide) (by decide)

/-- C8: with reference date 2024-01-01 and a 7-day window, a birthday on
Jan 5 (any stored year) is within the window, a birthday on Jan 10 is
not, and a birthday on Dec 28 is not (its candidate is Dec 28 of the
reference year, eleven months away, not of last December). -/
theorem birthday_window_examples (y1 y2 y3 : Nat) :
    isBirthdayWithinDays (some ⟨y1, 1, 5⟩) ⟨2024, 1, 1⟩ 7 = some true ∧
    isBirthdayWithinDays (some ⟨y2, 1, 10⟩) ⟨2024, 1, 1⟩ 7 = some false ∧
    isBirthdayWithinDays (some ⟨y3, 12, 28⟩) ⟨2024, 1, 1⟩ 7 = some false :=
  ⟨rfl, rfl, rfl⟩

/-- C10 (counterexample): window monotonicity fails at the edge of the
supported date range — at reference date 9999-12-31 a birthday on
Dec 31 is within a 0-day window, but enlarging the window to 1 day makes
`current_date + timedelta(days=1)` overflow (`OverflowError`, modelled
`none`), so the predicate no longer returns `True`. -/
theorem birthday_window_monotone_overflow_cex :
    isBirthdayWithinDays (some ⟨2000, 12, 31⟩) ⟨9999, 12, 31⟩ 0 = some true ∧
    isBirthdayWithinDays (some ⟨2000, 12, 31⟩) ⟨9999, 12, 31⟩ 1 = none := by
  decide

/-- C10 (amended): the predicate is monotone in the window size as long
as the end date of the larger window still exists (no `OverflowError`): if it
returns `True` for `d` days and `d ≤ d'` with `r + d'` representable,
it returns `True` for `d'` days. -/
theorem birthday_window_monotone (b : Option PyDate) (r : PyDate)
    (d d' : Nat) (e' : PyDate) (hdd : d ≤ d') (he' : addDays r d' = some e')
    (h : isBirthdayWithinDays b r d = some true) :
    isBirthdayWithinDays b r d' = some true := by
  cases b with
  | none => simp [isBirthdayWithinDays] at h
  | some b0 =>
    cases had : addDays r d with
    | none => simp [isBirthdayWithinDays, had] at h
    | some e =>
      have hee' : PyDate.le e e' = true := addDays_mono hdd had he'
      cases hpr : pyReplaceYear b0 r.year with
      | none => simp [isBirthdayWithinDays, had, hpr] at h
      | some c0 =>
        by_cases hlt : PyDate.lt c0 r = true
        · cases hpr2 : pyReplaceYear c0 (r.year + 1) with
          | none => simp [isBirthdayWithinDays, had, hpr, hlt, hpr2] at h
          | some c1 =>
            simp [isBirthdayWithinDays, had, hpr, hlt, hpr2,
              Bool.and_eq_true] at h
            simp [isBirthdayWithinDays, he', hpr, hlt, hpr2,
              Bool.and_eq_true]
            exact ⟨h.1, pyLe_trans h.2 hee'⟩
        · simp [isBirthdayWithinDays, had, hpr, hlt, Bool.and_eq_true] at h
          simp [isBirthdayWithinDays, he', hpr, hlt, Bool.and_eq_true]
          exact ⟨h.1, pyLe_trans h.2 hee'⟩

/-- Closed instance of `birthday_window_monotone`: a birthday within a
7-day window is still within a 9-day window. -/
theorem birthday_window_monotone_witness :
    isBirthdayWithinDays (some ⟨2000, 1, 5⟩) ⟨2024, 1, 1⟩ 9 = some true :=
  birthday_window_monotone (some ⟨2000, 1, 5⟩) ⟨2024, 1, 1⟩ 7 9 ⟨2024, 1, 10⟩
    (by decide) (by decide) (by decide)

/-- C3: create fails with the 400 duplicate-email Conflict exactly when
some existing row already has the input email, leaving the store
unchanged; otherwise it appends exactly one new row carrying the
server-generated id, creation and update timestamps, and the input
fields, and returns that row. -/
theorem create_contact_spec (input : ContactBase) (now : Nat) (db : DB) :
    ((∃ c ∈ db.rows, c.email = input.email) →
      create_contact input now db = (Except.error ⟨400, dupEmailDetail⟩, db)) ∧
    ((∀ c ∈ db.rows, c.email ≠ input.email) →
      ∃ nc, create_contact input now db =
          (Except.ok nc, ⟨db.rows ++ [nc], db.nextId + 1⟩) ∧
        nc.id = db.nextId ∧ nc.created_at = now ∧ nc.updated_at = now ∧
        nc.first_name = input.first_name ∧ nc.last_name = input.last_name ∧
        nc.email = input.email ∧ nc.phone = input.phone ∧
        nc.birthday = some input.birthday ∧
        nc.additional_data = input.additional_data) := by
  constructor
  · rintro ⟨c, hc, he⟩
    cases hf : db.rows.find? (fun x => x.email == input.email) with
    | none =>
      have hnone := List.find?_eq_none.mp hf c hc
      simp [he] at hnone
    | some c2 => simp [create_contact, hf]
  · intro hall
    have hf : db.rows.find? (fun x => x.email == input.email) = none := by
      apply List.find?_eq_none.mpr
      intro x hx
      simpa using hall x hx
    refine ⟨{ id := db.nextId, first_name := input.first_name,
              last_name := input.last_name, email := input.email,
              phone := input.phone, birthday := some input.birthday,
              additional_data := input.additional_data,
              created_at := now, updated_at := now },
            ?_, rfl, rfl, rfl, rfl, rfl, rfl, rfl, rfl, rfl⟩
    simp [create_contact, hf]

/-- Closed instance of `create_contact_spec`: creating against a store
already holding the email is rejected unchanged, and creating against an
empty store appends the new record. -/
theorem create_contact_spec_witness :
    create_contact sampleInput 5 ⟨[sampleRow], 2⟩ =
      (Except.error ⟨400, dupEmailDetail⟩, ⟨[sampleRow], 2⟩) ∧
    ∃ nc, create_contact sampleInput 5 ⟨[], 1⟩ =
      (Except.ok nc, ⟨[] ++ [nc], 1 + 1⟩) :=
  ⟨(create_contact_spec sampleInput 5 ⟨[sampleRow], 2⟩).1
      ⟨sampleRow, by simp, rfl⟩,
   ((create_contact_spec sampleInput 5 ⟨[], 1⟩).2 (by simp)).elim
      (fun nc h => ⟨nc, h.1⟩)⟩

/-- C6: in-range paging returns the persisted order with the first
`skip` records dropped and at most `limit` records kept; out-of-range
paging is rejected with a 422 validation error, never clamped; and on a
two-record store `skip=0, limit=1` returns exactly the first record. -/
theorem list_pagination_spec (skip limit : Int) (db : DB) :
    (0 ≤ skip → 1 ≤ limit → limit ≤ 500 →
      get_contacts_list skip limit db =
        Except.ok ((db.rows.drop skip.toNat).take limit.toNat) ∧
      ((db.rows.drop skip.toNat).take limit.toNat).length ≤ limit.toNat) ∧
    ((skip < 0 ∨ limit < 1 ∨ 500 < limit) →
      get_contacts_list skip limit db = Except.error ⟨422, validationDetail⟩) ∧
    (∀ a b : ContactRec, ∀ n : Nat,
      get_contacts_list 0 1 ⟨[a, b], n⟩ = Except.ok [a]) := by
  refine ⟨?_, ?_, ?_⟩
  · intro h0 h1 h5
    constructor
    · rw [get_contacts_list, if_neg (by omega), if_neg (by omega),
        if_neg (by omega)]
    · rw [List.length_take]
      exact min_le_left _ _
  · intro h
    rw [get_contacts_list]
    split
    · rfl
    · split
      · rfl
      · split
        · rfl
        · omega
  · intro a b n
    rfl

/-- Closed instance of `list_pagination_spec`: a two-record store paged
with `skip=0, limit=100` returns both records, and `limit=0` is
rejected. -/
theorem list_pagination_spec_witness :
    (get_contacts_list 0 100 ⟨[sampleRow, sampleRow2], 3⟩ =
      Except.ok (([sampleRow, sampleRow2].drop (0 : Int).toNat).take
        (100 : Int).toNat) ∧
      (([sampleRow, sampleRow2].drop (0 : Int).toNat).take
        (100 : Int).toNat).length ≤ (100 : Int).toNat) ∧
    get_contacts_list 0 0 ⟨[sampleRow, sampleRow2], 3⟩ =
      Except.error ⟨422, validationDetail⟩ :=
  ⟨(list_pagination_spec 0 100 ⟨[sampleRow, sampleRow2], 3⟩).1
      (by decide) (by decide) (by decide),
   (list_pagination_spec 0 0 ⟨[sampleRow, sampleRow2], 3⟩).2.1
      (by omega)⟩

/-- C7: a successful delete followed by a get on the same id yields the
404 NotFound; both delete and get yield 404 when no row has the id; and
delete on an existing id removes every row with that id and returns no
content. -/
theorem delete_then_get_spec (contact_id : Nat) (db : DB) :
    (∀ db2, delete_contact_by_id contact_id db = (Except.ok (), db2) →
      get_contact_by_id contact_id db2 = Except.error ⟨404, notFoundDetail⟩) ∧
    ((∀ c ∈ db.rows, c.id ≠ contact_id) →
      delete_contact_by_id contact_id db =
        (Except.error ⟨404, notFoundDetail⟩, db) ∧
      get_contact_by_id contact_id db = Except.error ⟨404, notFoundDetail⟩) ∧
    (∀ c, db.rows.find? (fun x => x.id == contact_id) = some c →
      delete_contact_by_id contact_id db =
        (Except.ok (), ⟨db.rows.filter (fun x => x.id != contact_id),
          db.nextId⟩) ∧
      ∀ x ∈ db.rows.filter (fun x => x.id != contact_id),
        x.id ≠ contact_id) := by
  have hmem : ∀ x ∈ db.rows.filter (fun x => x.id != contact_id),
      x.id ≠ contact_id := by
    intro x hx
    have hb := (List.mem_filter.mp hx).2
    simpa using hb
  have hfind : (db.rows.filter (fun x => x.id != contact_id)).find?
      (fun x => x.id == contact_id) = none :=
    List.find?_eq_none.mpr (fun x hx => by simpa using hmem x hx)
  refine ⟨?_, ?_, ?_⟩
  · intro db2 h
    cases hf : db.rows.find? (fun x => x.id == contact_id) with
    | none => simp [delete_contact_by_id, hf] at h
    | some c =>
      simp only [delete_contact_by_id, hf, Prod.mk.injEq, true_and] at h
      subst h
      simp [get_contact_by_id, hfind]
  · intro hall
    have hf : db.rows.find? (fun x => x.id == contact_id) = none := by
      apply List.find?_eq_none.mpr
      intro x hx
      simpa using hall x hx
    exact ⟨by simp [delete_contact_by_id, hf], by simp [get_contact_by_id, hf]⟩
  · intro c hf
    exact ⟨by simp [delete_contact_by_id, hf], hmem⟩

/-- Closed instance of `delete_then_get_spec` on a one-record store. -/
theorem delete_then_get_spec_witness :
    get_contact_by_id 1 ⟨[sampleRow].filter (fun x => x.id != 1), 2⟩ =
      Except.error ⟨404, notFoundDetail⟩ ∧
    delete_contact_by_id 3 ⟨[sampleRow], 2⟩ =
      (Except.error ⟨404, notFoundDetail⟩, ⟨[sampleRow], 2⟩) ∧
    delete_contact_by_id 1 ⟨[sampleRow], 2⟩ =
      (Except.ok (), ⟨[sampleRow].filter (fun x => x.id != 1), 2⟩) :=
  ⟨(delete_then_get_spec 1 ⟨[sampleRow], 2⟩).1
      ⟨[sampleRow].filter (fun x => x.id != 1), 2⟩ rfl,
   ((delete_then_get_spec 3 ⟨[sampleRow], 2⟩).2.1 (by decide)).1,
   ((delete_then_get_spec 1 ⟨[sampleRow], 2⟩).2.2 sampleRow rfl).1⟩

theorem pending_isNone_false {α : Type} (o : Option (Option α))
    (d : Option α) (h1 : o ≠ some none) (h2 : d ≠ none) :
    (o.getD d).isNone = false := by
  cases o with
  | none =>
    cases d with
    | none => exact absurd rfl h2
    | some v => rfl
  | some i =>
    cases i with
    | none => exact absurd rfl h1
    | some v => rfl

theorem violatesNotNull_false (c : ContactRec) (u : ContactUpdate)
    (hfn : u.first_name ≠ some none) (hln : u.last_name ≠ some none)
    (hem : u.email ≠ some none) (hph : u.phone ≠ some none)
    (hbd : u.birthday ≠ some none) (hcb : c.birthday ≠ none) :
    violatesNotNull (pendingFields c u) = false := by
  have h1 := pending_isNone_false u.first_name (some c.first_name) hfn (by simp)
  have h2 := pending_isNone_false u.last_name (some c.last_name) hln (by simp)
  have h3 := pending_isNone_false u.email (some c.email) hem (by simp)
  have h4 := pending_isNone_false u.phone (some c.phone) hph (by simp)
  have h5 := pending_isNone_false u.birthday c.birthday hbd hcb
  simp only [violatesNotNull, pendingFields]
  rw [h1, h2, h3, h4, h5]
  rfl

/-- C4 (counterexample): three failing inputs against the claim on
existing ids — supplying an email that duplicates the email of a
different record makes the commit violate the unique constraint
(uncaught `IntegrityError`, 500, store unchanged) instead of returning
the updated record; the empty partial input emits no UPDATE, so the
returned record keeps `updated_at = 0` although the operation runs at
instant 5 — `updated_at` is neither refreshed nor strictly increased;
and supplying `first_name` as explicit `null` violates NOT NULL (500,
store unchanged). -/
theorem update_collision_no_record_returned :
    (DB.mk [sampleRow, sampleRow2] 3).rows.find? (fun x => x.id == 1) =
      some sampleRow ∧
    update_contact_by_id 1 { email := some (some "bob@example.com") } 5
        ⟨[sampleRow, sampleRow2], 3⟩ =
      (Except.error ⟨500, integrityDetail⟩, ⟨[sampleRow, sampleRow2], 3⟩) ∧
    update_contact_by_id 1 {} 5 ⟨[sampleRow], 2⟩ =
      (Except.ok sampleRow, ⟨[sampleRow], 2⟩) ∧
    sampleRow.updated_at = 0 ∧
    update_contact_by_id 1 { first_name := some none } 5 ⟨[sampleRow], 2⟩ =
      (Except.error ⟨500, integrityDetail⟩, ⟨[sampleRow], 2⟩) :=
  ⟨rfl, rfl, rfl, rfl, rfl⟩

/-- C4 (amended): update fails with 404 NotFound when no row has the id.
When the row exists, the input supplies no explicit `null` on a
NOT NULL column, the stored row has its NOT NULL birthday, and the
pending email does not duplicate the email of a different row, the
operation returns a record in which every supplied field carries the
supplied value (an explicit `null` on `additional_data` clears it),
every omitted field keeps its pre-update value, and `id` and
`created_at` are untouched.  `updated_at` is refreshed to the operation
instant exactly when some supplied value differs from the stored one —
and then strictly increases provided the clock advanced past the stored
`updated_at`, which the monotone wall clock guarantees in the program;
an input changing nothing emits no UPDATE and returns the stored record
unchanged. -/
theorem update_contact_spec (contact_id : Nat) (u : ContactUpdate)
    (now : Nat) (db : DB) :
    ((∀ c ∈ db.rows, c.id ≠ contact_id) →
      update_contact_by_id contact_id u now db =
        (Except.error ⟨404, notFoundDetail⟩, db)) ∧
    (∀ c, db.rows.find? (fun x => x.id == contact_id) = some c →
      u.first_name ≠ some none → u.last_name ≠ some none →
      u.email ≠ some none → u.phone ≠ some none → u.birthday ≠ some none →
      c.birthday ≠ none →
      (∀ c2 ∈ db.rows, c2.id ≠ contact_id →
        some c2.email ≠ (pendingFields c u).email) →
      ∃ c2, update_contact_by_id contact_id u now db =
          (Except.ok c2,
           ⟨db.rows.map (fun x => if x.id == contact_id then c2 else x),
            db.nextId⟩) ∧
        (∀ v, u.first_name = some (some v) → c2.first_name = v) ∧
        (u.first_name = none → c2.first_name = c.first_name) ∧
        (∀ v, u.last_name = some (some v) → c2.last_name = v) ∧
        (u.last_name = none → c2.last_name = c.last_name) ∧
        (∀ v, u.email = some (some v) → c2.email = v) ∧
        (u.email = none → c2.email = c.email) ∧
        (∀ v, u.phone = some (some v) → c2.phone = v) ∧
        (u.phone = none → c2.phone = c.phone) ∧
        (∀ v, u.birthday = some (some v) → c2.birthday = some v) ∧
        (u.birthday = none → c2.birthday = c.birthday) ∧
        (∀ a, u.additional_data = some a → c2.additional_data = a) ∧
        (u.additional_data = none → c2.additional_data = c.additional_data) ∧
        c2.id = c.id ∧ c2.created_at = c.created_at ∧
        (pendingFields c u ≠ toPending c →
          c2.updated_at = now ∧
          (c.updated_at < now → c.updated_at < c2.updated_at)) ∧
        (pendingFields c u = toPending c → c2 = c)) := by
  constructor
  · intro hall
    have hf : db.rows.find? (fun x => x.id == contact_id) = none := by
      apply List.find?_eq_none.mpr
      intro x hx
      simpa using hall x hx
    simp [update_contact_by_id, hf]
  · intro c hf hfn hln hem hph hbd hcb hemail
    have hnn : violatesNotNull (pendingFields c u) = false :=
      violatesNotNull_false c u hfn hln hem hph hbd hcb
    have hany : db.rows.any (fun x => x.id != contact_id &&
        decide (some x.email = (pendingFields c u).email)) = false := by
      rw [← Bool.not_eq_true, List.any_eq_true]
      rintro ⟨x, hx, hb⟩
      rw [Bool.and_eq_true] at hb
      have h1 : x.id ≠ contact_id := by simpa using hb.1
      have h2 : some x.email = (pendingFields c u).email := by simpa using hb.2
      exact hemail x hx h1 h2
    by_cases hch : pendingFields c u = toPending c
    · have hnn2 : violatesNotNull (toPending c) = false := by
        rw [← hch]
        exact hnn
      have hany2 : db.rows.any (fun x => x.id != contact_id &&
          decide (some x.email = (toPending c).email)) = false := by
        rw [← hch]
        exact hany
      refine ⟨c, ?_,
        ?_, fun _ => rfl, ?_, fun _ => rfl, ?_, fun _ => rfl,
        ?_, fun _ => rfl, ?_, fun _ => rfl, ?_, fun _ => rfl,
        rfl, rfl, fun hne => absurd hch hne, fun _ => rfl⟩
      · simp [update_contact_by_id, hf, hch, hnn2, hany2]
      · intro v hv
        have h := congrArg PendingRow.first_name hch
        simp [pendingFields, toPending, hv] at h
        first
        | exact h
        | exact h.symm
      · intro v hv
        have h := congrArg PendingRow.last_name hch
        simp [pendingFields, toPending, hv] at h
        first
        | exact h
        | exact h.symm
      · intro v hv
        have h := congrArg PendingRow.email hch
        simp [pendingFields, toPending, hv] at h
        first
        | exact h
        | exact h.symm
      · intro v hv
        have h := congrArg PendingRow.phone hch
        simp [pendingFields, toPending, hv] at h
        first
        | exact h
        | exact h.symm
      · intro v hv
        have h := congrArg PendingRow.birthday hch
        simp [pendingFields, toPending, hv] at h
        first
        | exact h
        | exact h.symm
      · intro a ha
        have h := congrArg PendingRow.additional_data hch
        simp [pendingFields, toPending, ha] at h
        first
        | exact h
        | exact h.symm
    · refine ⟨commitRow c (pendingFields c u) now, ?_,
        ?_, ?_, ?_, ?_, ?_, ?_, ?_, ?_, ?_, ?_, ?_, ?_,
        rfl, rfl, fun _ => ⟨rfl, fun h => h⟩, fun h => absurd h hch⟩
      · simp [update_contact_by_id, hf, hnn, hany, hch]
      · intro v hv
        simp [commitRow, pendingFields, hv]
      · intro hv
        simp [commitRow, pendingFields, hv]
      · intro v hv
        simp [commitRow, pendingFields, hv]
      · intro hv
        simp [commitRow, pendingFields, hv]
      · intro v hv
        simp [commitRow, pendingFields, hv]
      · intro hv
        simp [commitRow, pendingFields, hv]
      · intro v hv
        simp [commitRow, pendingFields, hv]
      · intro hv
        simp [commitRow, pendingFields, hv]
      · intro v hv
        simp [commitRow, pendingFields, hv]
      · intro hv
        simp [commitRow, pendingFields, hv]
      · intro a ha
        simp [commitRow, pendingFields, ha]
      · intro ha
        simp [commitRow, pendingFields, ha]

/-- Closed instance of `update_contact_spec`: updating an unknown id is a
404, and updating the first name of the only record succeeds. -/
theorem update_contact_spec_witness :
    update_contact_by_id 3 { first_name := some (some "Maria") } 5
        ⟨[sampleRow], 2⟩ =
      (Except.error ⟨404, notFoundDetail⟩, ⟨[sampleRow], 2⟩) ∧
    ∃ c2, update_contact_by_id 1 { first_name := some (some "Maria") } 5
        ⟨[sampleRow], 2⟩ =
      (Except.ok c2,
       ⟨[sampleRow].map (fun x => if x.id == 1 then c2 else x), 2⟩) :=
  ⟨(update_contact_spec 3 { first_name := some (some "Maria") } 5
      ⟨[sampleRow], 2⟩).1 (by decide),
   ((update_contact_spec 1 { first_name := some (some "Maria") } 5
      ⟨[sampleRow], 2⟩).2 sampleRow rfl (by decide) (by decide) (by decide)
      (by decide) (by decide) (by decide) (by decide)).elim
      (fun c2 h => ⟨c2, h.1⟩)⟩

/-- C9: when an update supplies an email equal to the email of a
different existing record, the operation is rejected (the unique-email
constraint makes the commit fail, and nothing is persisted); supplying
the own current email of the contact succeeds without error (stated for
inputs whose other supplied fields are not explicit nulls, the only
inputs the previous non-null update shape could express, and for a
stored row satisfying the NOT NULL birthday column). -/
theorem update_email_uniqueness_spec (contact_id : Nat) (u : ContactUpdate)
    (now : Nat) (db : DB) (c : ContactRec) :
    (db.rows.find? (fun x => x.id == contact_id) = some c →
      ∀ e : String, u.email = some (some e) →
      (∃ c2 ∈ db.rows, c2.id ≠ contact_id ∧ c2.email = e) →
      update_contact_by_id contact_id u now db =
        (Except.error ⟨500, integrityDetail⟩, db)) ∧
    (db.rows.find? (fun x => x.id == contact_id) = some c →
      u.email = some (some c.email) →
      (∀ c2 ∈ db.rows, c2.id ≠ contact_id → c2.email ≠ c.email) →
      u.first_name ≠ some none → u.last_name ≠ some none →
      u.phone ≠ some none → u.birthday ≠ some none → c.birthday ≠ none →
      ∃ c2, update_contact_by_id contact_id u now db =
          (Except.ok c2,
           ⟨db.rows.map (fun x => if x.id == contact_id then c2 else x),
            db.nextId⟩) ∧
        c2.email = c.email) := by
  constructor
  · intro hf e he hex
    obtain ⟨x0, hx0, hne, heq⟩ := hex
    have hpe : (pendingFields c u).email = some e := by
      simp [pendingFields, he]
    cases hnn : violatesNotNull (pendingFields c u) with
    | true => simp [update_contact_by_id, hf, hnn]
    | false =>
      have hany : db.rows.any (fun x => x.id != contact_id &&
          decide (some x.email = (pendingFields c u).email)) = true := by
        rw [List.any_eq_true]
        refine ⟨x0, hx0, ?_⟩
        rw [Bool.and_eq_true]
        refine ⟨by simpa using hne, ?_⟩
        rw [hpe]
        simpa using heq
      simp [update_contact_by_id, hf, hnn, hany]
  · intro hf he hall hfn hln hph hbd hcb
    have hpe : (pendingFields c u).email = some c.email := by
      simp [pendingFields, he]
    have hem : u.email ≠ some none := by
      rw [he]
      simp
    have hnn : violatesNotNull (pendingFields c u) = false :=
      violatesNotNull_false c u hfn hln hem hph hbd hcb
    have hany : db.rows.any (fun x => x.id != contact_id &&
        decide (some x.email = (pendingFields c u).email)) = false := by
      rw [← Bool.not_eq_true, List.any_eq_true]
      rintro ⟨x, hx, hb⟩
      rw [Bool.and_eq_true] at hb
      have h1 : x.id ≠ contact_id := by simpa using hb.1
      have h2 : some x.email = (pendingFields c u).email := by simpa using hb.2
      rw [hpe] at h2
      exact hall x hx h1 (by simpa using h2)
    by_cases hch : pendingFields c u = toPending c
    · have hnn2 : violatesNotNull (toPending c) = false := by
        rw [← hch]
        exact hnn
      have hany2 : db.rows.any (fun x => x.id != contact_id &&
          decide (some x.email = (toPending c).email)) = false := by
        rw [← hch]
        exact hany
      exact ⟨c, by simp [update_contact_by_id, hf, hch, hnn2, hany2], rfl⟩
    · refine ⟨commitRow c (pendingFields c u) now,
        by simp [update_contact_by_id, hf, hnn, hany, hch], ?_⟩
      simp [commitRow, hpe]

/-- Closed instance of `update_email_uniqueness_spec`: stealing the email
of the other record is rejected with the store unchanged; re-submitting
the own email succeeds. -/
theorem update_email_uniqueness_spec_witness :
    update_contact_by_id 1 { email := some (some "bob@example.com") } 7
        ⟨[sampleRow, sampleRow2], 3⟩ =
      (Except.error ⟨500, integrityDetail⟩, ⟨[sampleRow, sampleRow2], 3⟩) ∧
    ∃ c2, update_contact_by_id 1 { email := some (some "alice@example.com") } 7
        ⟨[sampleRow, sampleRow2], 3⟩ =
      (Except.ok c2,
       ⟨[sampleRow, sampleRow2].map (fun x => if x.id == 1 then c2 else x),
        3⟩) ∧
      c2.email = sampleRow.email :=
  ⟨(update_email_uniqueness_spec 1 { email := some (some "bob@example.com") } 7
      ⟨[sampleRow, sampleRow2], 3⟩ sampleRow).1 rfl "bob@example.com" rfl
      ⟨sampleRow2, by simp, by decide, rfl⟩,
   (update_email_uniqueness_spec 1
      { email := some (some "alice@example.com") } 7
      ⟨[sampleRow, sampleRow2], 3⟩ sampleRow).2 rfl rfl (by decide)
      (by decide) (by decide) (by decide) (by decide) (by decide)⟩

/-! ### LIKE-pattern versus substring semantics -/

theorem startsWithCh_iff (q s : List Char) :
    startsWithCh q s = true ↔ ∃ t, s = q ++ t := by
  induction q generalizing s with
  | nil => simp [startsWithCh]
  | cons a as ih =>
    cases s with
    | nil => simp [startsWithCh]
    | cons b bs =>
      rw [startsWithCh, Bool.and_eq_true, ih]
      constructor
      · rintro ⟨hab, t, rfl⟩
        exact ⟨t, by rw [beq_iff_eq.mp hab]; rfl⟩
      · rintro ⟨t, ht⟩
        obtain ⟨rfl, rfl⟩ : b = a ∧ bs = as ++ t := by
          simpa using ht
        exact ⟨by simp, t, rfl⟩

theorem containsSub_iff (q s : List Char) :
    containsSub q s = true ↔ ∃ u v, s = u ++ q ++ v := by
  induction s with
  | nil =>
    cases q with
    | nil => simp [containsSub]
    | cons a as => simp [containsSub]
  | cons b t ih =>
    rw [containsSub, Bool.or_eq_true, startsWithCh_iff, ih]
    constructor
    · rintro (⟨r, hr⟩ | ⟨u, v, hv⟩)
      · exact ⟨[], r, by simpa using hr⟩
      · exact ⟨b :: u, v, by simp [hv]⟩
    · rintro ⟨u, v, huv⟩
      cases u with
      | nil => exact Or.inl ⟨v, by simpa using huv⟩
      | cons x u2 =>
        obtain ⟨rfl, ht⟩ : b = x ∧ t = u2 ++ q ++ v := by
          simpa using huv
        exact Or.inr ⟨u2, v, ht⟩

theorem likeMatch_percent_nil (s : List Char) : likeMatch ['%'] s = true := by
  induction s with
  | nil => simp [likeMatch]
  | cons c t ih => simp [likeMatch, ih]

theorem likeMatch_percent (ps s : List Char) :
    likeMatch ('%' :: ps) s = true ↔
      ∃ u v, s = u ++ v ∧ likeMatch ps v = true := by
  induction s with
  | nil =>
    have hnil : likeMatch ('%' :: ps) [] = likeMatch ps [] := by
      simp [likeMatch]
    rw [hnil]
    constructor
    · intro h
      exact ⟨[], [], rfl, h⟩
    · rintro ⟨u, v, huv, h⟩
      obtain ⟨rfl, rfl⟩ : u = [] ∧ v = [] := List.append_eq_nil.mp huv.symm
      exact h
  | cons c t ih =>
    have hstep : likeMatch ('%' :: ps) (c :: t) =
        (likeMatch ps (c :: t) || likeMatch ('%' :: ps) t) := by
      simp [likeMatch]
    rw [hstep, Bool.or_eq_true, ih]
    constructor
    · rintro (h | ⟨u, v, rfl, h⟩)
      · exact ⟨[], c :: t, rfl, h⟩
      · exact ⟨c :: u, v, rfl, h⟩
    · rintro ⟨u, v, huv, h⟩
      cases u with
      | nil =>
        refine Or.inl ?_
        obtain rfl : c :: t = v := by simpa using huv
        exact h
      | cons x u2 =>
        obtain ⟨rfl, ht⟩ : c = x ∧ t = u2 ++ v := by simpa using huv
        exact Or.inr ⟨u2, v, ht, h⟩

theorem likeMatch_lit (q ps s : List Char) (hq : noMeta q) :
    likeMatch (q ++ ps) s = true ↔
      ∃ v, s = q ++ v ∧ likeMatch ps v = true := by
  induction q generalizing s with
  | nil => simp
  | cons a as ih =>
    have ha := hq a (by simp)
    have has : noMeta as := fun x hx => hq x (by simp [hx])
    have h1 : (a == '%') = false := by
      simpa using ha.1
    have h2 : (a == '_') = false := by
      simpa using ha.2.1
    have h3 : (a == backslashChar) = false := by
      simpa using ha.2.2
    cases s with
    | nil =>
      have hstep : likeMatch ((a :: as) ++ ps) [] = false := by
        simp [likeMatch, h1]
      rw [hstep]
      simp
    | cons c t =>
      have hstep : likeMatch ((a :: as) ++ ps) (c :: t) =
          (a == c && likeMatch (as ++ ps) t) := by
        rw [List.cons_append, likeMatch]
        simp [h1, h2, h3]
      rw [hstep, Bool.and_eq_true, beq_iff_eq, ih t has]
      constructor
      · rintro ⟨rfl, v, rfl, h⟩
        exact ⟨v, rfl, h⟩
      · rintro ⟨v, hv, h⟩
        obtain ⟨rfl, rfl⟩ : c = a ∧ t = as ++ v := by simpa using hv
        exact ⟨rfl, v, rfl, h⟩

theorem likeMatch_substr (q s : List Char) (hq : noMeta q) :
    likeMatch ('%' :: (q ++ ['%'])) s = containsSub q s := by
  have h1 : likeMatch ('%' :: (q ++ ['%'])) s = true ↔ ∃ u v, s = u ++ q ++ v := by
    rw [likeMatch_percent]
    constructor
    · rintro ⟨u, v, rfl, h⟩
      obtain ⟨w, rfl, -⟩ := (likeMatch_lit q ['%'] v hq).mp h
      exact ⟨u, w, by simp⟩
    · rintro ⟨u, w, rfl⟩
      refine ⟨u, q ++ w, by simp, ?_⟩
      exact (likeMatch_lit q ['%'] (q ++ w) hq).mpr ⟨w, rfl, likeMatch_percent_nil w⟩
  rw [← containsSub_iff q s] at h1
  cases hb : containsSub q s with
  | false =>
    cases hl : likeMatch ('%' :: (q ++ ['%'])) s with
    | false => rfl
    | true => rw [hb] at h1; simpa using h1.mp hl
  | true => rw [hb] at h1; exact h1.mpr rfl

theorem ilike_spec (q s : String) (hq : noMeta (lowerStr q)) :
    ilike s ("%" ++ q ++ "%") = specContainsCI q s := by
  have hperc : Char.toLower '%' = '%' := by decide
  have hd : ("%" : String).data = ['%'] := rfl
  have hpat : lowerStr ("%" ++ q ++ "%") = '%' :: (lowerStr q ++ ['%']) := by
    simp [lowerStr, String.data_append, hd, hperc]
  rw [ilike, hpat, specContainsCI]
  exact likeMatch_substr (lowerStr q) (lowerStr s) hq

/-- C5 (counterexample): the search filter is SQL LIKE matching, not
substring containment — the query `a_a` (the `_` wildcard matches any
single character) returns the row named `aba` even though no field
contains `a_a` as a substring, where the claim would demand NotFound. -/
theorem search_wildcard_cex :
    search_contacts_by_query "a_a" ⟨[cexRow], 2⟩ = Except.ok [cexRow] ∧
    specContainsCI "a_a" cexRow.first_name = false ∧
    specContainsCI "a_a" cexRow.last_name = false ∧
    specContainsCI "a_a" cexRow.email = false := by
  refine ⟨?_, by decide, by decide, by decide⟩
  have hfn : ilike cexRow.first_name "%a_a%" = true := by
    have hp : lowerStr "%a_a%" = ['%', 'a', '_', 'a', '%'] := by
      decide
    have hs : lowerStr cexRow.first_name = ['a', 'b', 'a'] := by decide
    rw [ilike, hp, hs]
    simp [likeMatch, backslashChar]
  simp [search_contacts_by_query, hfn]
  decide

/-- C5 (amended): a query shorter than 3 characters is rejected by the
422 validation boundary; a query of length ≥ 3 containing no LIKE
metacharacter (`%`, `_`, backslash, compared case-folded) returns
exactly the rows whose first name, last name or email contains the query
as a case-insensitive substring, and fails with the 404 NotFound exactly
when that set is empty. -/
theorem search_spec (q : String) (db : DB) :
    (q.length < 3 →
      search_contacts_by_query q db = Except.error ⟨422, validationDetail⟩) ∧
    (3 ≤ q.length → noMeta (lowerStr q) →
      search_contacts_by_query q db =
        (if (db.rows.filter (fun c => specContainsCI q c.first_name ||
              specContainsCI q c.last_name || specContainsCI q c.email)).isEmpty
         then Except.error ⟨404, noMatchDetail⟩
         else Except.ok (db.rows.filter (fun c =>
              specContainsCI q c.first_name || specContainsCI q c.last_name ||
              specContainsCI q c.email)))) := by
  constructor
  · intro h
    rw [search_contacts_by_query, if_pos h]
  · intro h3 hq
    have hfilter : db.rows.filter (fun c =>
        ilike c.first_name ("%" ++ q ++ "%") ||
        ilike c.last_name ("%" ++ q ++ "%") ||
        ilike c.email ("%" ++ q ++ "%")) =
      db.rows.filter (fun c =>
        specContainsCI q c.first_name || specContainsCI q c.last_name ||
        specContainsCI q c.email) := by
      apply List.filter_congr
      intro c hc
      rw [ilike_spec q c.first_name hq, ilike_spec q c.last_name hq,
        ilike_spec q c.email hq]
    rw [search_contacts_by_query, if_neg (by omega)]
    simp only [hfilter]

/-- Closed instance of `search_spec`: a two-character query is rejected,
and the wildcard-free query `ali` finds the record whose first name is
`Alice`. -/
theorem search_spec_witness :
    search_contacts_by_query "al" ⟨[sampleRow], 2⟩ =
      Except.error ⟨422, validationDetail⟩ ∧
    search_contacts_by_query "ali" ⟨[sampleRow], 2⟩ =
      (if ([sampleRow].filter (fun c => specContainsCI "ali" c.first_name ||
            specContainsCI "ali" c.last_name || specContainsCI "ali" c.email)).isEmpty
       then Except.error ⟨404, noMatchDetail⟩
       else Except.ok ([sampleRow].filter (fun c =>
            specContainsCI "ali" c.first_name ||
            specContainsCI "ali" c.last_name ||
            specContainsCI "ali" c.email))) :=
  ⟨(search_spec "al" ⟨[sampleRow], 2⟩).1 (by decide),
   (search_spec "ali" ⟨[sampleRow], 2⟩).2 (by decide)
      (by unfold noMeta; decide)⟩
